import Mathlib

/-!
Verification of the durable work-queue core of `media_fixer.py`
(TheLustriVA/media_fixer).

The development shallowly embeds the queue store (`QueueManager`), the
classifier (`analyze_video`), the scan-phase routing (`scan_videos`), the
per-item transformation driver (`process_video`) and the main work loop,
and proves or refutes the specification claims about them.

File contents are modelled as lists of characters; the on-disk state is a
partial map from file path to file content.  Python's line handling
(`readlines`, `str.strip`, `str.split`) is reproduced at the character
level so that the queue file format arguments are about the real byte-level
behaviour of the program.
-/

namespace MediaFixer

/-- Python exceptions that the embedded fragment can raise. -/
inductive PyErr where
  | keyError
  | valueError
  deriving DecidableEq, Repr

/-! ## Python string primitives -/

/-- Helper for `pythonReadlines`: walks the content accumulating the current
line (in reverse); a newline flushes the accumulator, keeping the newline
at the end of the produced chunk, exactly as Python's `readlines` does. -/
def readlinesAux : List Char → List Char → List (List Char)
  | [], acc => if acc.isEmpty then [] else [acc.reverse]
  | c :: rest, acc =>
    if c = '\n' then (acc.reverse ++ ['\n']) :: readlinesAux rest []
    else readlinesAux rest (c :: acc)

/-- Python `f.readlines()`: split the file content after each newline,
keeping the newline; a final chunk without a newline is kept if nonempty. -/
def pythonReadlines (content : List Char) : List (List Char) :=
  readlinesAux content []

/-- Python `str.strip()`: remove leading and trailing whitespace. -/
def pythonStrip (l : List Char) : List Char :=
  ((l.dropWhile Char.isWhitespace).reverse.dropWhile Char.isWhitespace).reverse

/-- Concatenation of a list of chunks (Python `f.writelines`). -/
def joinChars (ls : List (List Char)) : List Char :=
  ls.foldr (· ++ ·) []

/-- Python `str.split('||||')` specialised to the four-pipe delimiter used
for work items: split on each non-overlapping occurrence, left to right. -/
def splitQuadAux : List Char → List Char → List (List Char)
  | '|' :: '|' :: '|' :: '|' :: rest, acc => acc.reverse :: splitQuadAux rest []
  | c :: rest, acc => splitQuadAux rest (c :: acc)
  | [], acc => [acc.reverse]

def splitQuad (l : List Char) : List (List Char) :=
  splitQuadAux l []

/-- Helper for `pySplitWs`: whitespace runs separate tokens and are
discarded, as in Python's argumentless `str.split()`. -/
def pySplitWsAux : List Char → List Char → List (List Char)
  | [], acc => if acc.isEmpty then [] else [acc.reverse]
  | c :: rest, acc =>
    if c.isWhitespace then
      if acc.isEmpty then pySplitWsAux rest [] else acc.reverse :: pySplitWsAux rest []
    else pySplitWsAux rest (c :: acc)

/-- Python `str.split()` with no argument. -/
def pySplitWs (l : List Char) : List (List Char) :=
  pySplitWsAux l []

/-! ## The on-disk state -/

/-- The filesystem fragment the program touches: a partial map from file
path to file content (`none` = the file does not exist). -/
def Store : Type := String → Option (List Char)

/-- Overwrite (mode `'w'`): write `c` to path `p`, creating the file. -/
def storeWrite (st : Store) (p : String) (c : List Char) : Store :=
  fun q => if q = p then some c else st q

/-- Remove a file (`unlink`). -/
def storeErase (st : Store) (p : String) : Store :=
  fun q => if q = p then none else st q

/-- Append (mode `'a'`): add `s` at the end of the file at `p`, creating
the file with just `s` when it does not exist. -/
def storeAppend (st : Store) (p : String) (s : List Char) : Store :=
  storeWrite st p ((match st p with | none => [] | some c => c) ++ s)

/-! ## QueueManager -/

/-- `QueueManager.__init__` state: the queue directory and the filename
prefix (`prefix` in the source; renamed because `prefix` is a Lean
keyword). -/
structure QueueManager where
  queue_path : String
  pfx : String

/-- `QueueManager._get_queue_file`. -/
def QueueManager.getQueueFile (qm : QueueManager) (name : String) : String :=
  qm.queue_path ++ "/" ++ qm.pfx ++ "mediafixer_queue." ++ name

/-- The `self.queues` dictionary built in `QueueManager.__init__`, in
insertion order. -/
def QueueManager.queues (qm : QueueManager) : List (String × String) :=
  [("skipped", qm.getQueueFile "skipped"),
   ("failed", qm.getQueueFile "failed"),
   ("completed", qm.getQueueFile "completed"),
   ("in_progress", qm.getQueueFile "in_progress"),
   ("leftovers", qm.getQueueFile "leftovers")]

/-- `QueueManager.initialize_queues`: truncate every queue file to empty. -/
def QueueManager.init_queues (qm : QueueManager) (st : Store) : Store :=
  qm.queues.foldl (fun s pr => storeWrite s pr.2 []) st

/-- `QueueManager.add_to_queue`: `self.queues[queue_name]` raises
`KeyError` on an unknown name; otherwise append `f"{entry}\n"`. -/
def QueueManager.add_to_queue (qm : QueueManager) (st : Store)
    (queue_name entry : String) : Except PyErr Store :=
  match (qm.queues).lookup queue_name with
  | none => .error .keyError
  | some file => .ok (storeAppend st file (entry.data ++ ['\n']))

/-- `QueueManager.get_queue_length`: 0 for a name not in the dict, 0 for a
missing file (`FileNotFoundError` is caught), else the line count. -/
def QueueManager.get_queue_length (qm : QueueManager) (st : Store)
    (queue_name : String) : Nat :=
  match (qm.queues).lookup queue_name with
  | none => 0
  | some file =>
    match st file with
    | none => 0
    | some content => (pythonReadlines content).length

/-- `QueueManager.pop_from_queue`: read all lines; on an empty or missing
file return `None`; otherwise rewrite the file with the remaining lines and
return the first line stripped.  An unknown queue name raises `KeyError`
(the `try` only catches `FileNotFoundError`). -/
def QueueManager.pop_from_queue (qm : QueueManager) (st : Store)
    (queue_name : String) : Except PyErr (Option String × Store) :=
  match (qm.queues).lookup queue_name with
  | none => .error .keyError
  | some file =>
    match st file with
    | none => .ok (none, st)
    | some content =>
      match pythonReadlines content with
      | [] => .ok (none, st)
      | l :: ls => .ok (some (String.mk (pythonStrip l)), storeWrite st file (joinChars ls))

/-! ## Observation helpers -/

/-- The raw lines currently stored in a queue (empty for an unknown name or
a missing file). -/
def queueLines (qm : QueueManager) (st : Store) (name : String) : List String :=
  match (qm.queues).lookup name with
  | none => []
  | some file =>
    match st file with
    | none => []
    | some content => (pythonReadlines content).map String.mk

/-- The entries of a queue as `pop_from_queue` would return them (each line
stripped). -/
def queueEntries (qm : QueueManager) (st : Store) (name : String) : List String :=
  match (qm.queues).lookup name with
  | none => []
  | some file =>
    match st file with
    | none => []
    | some content => (pythonReadlines content).map (fun l => String.mk (pythonStrip l))

/-- The content of a queue file holding exactly the given entries, each
written by `add_to_queue` (entry text followed by a newline). -/
def queueContentOf (entries : List String) : List Char :=
  joinChars (entries.map (fun e => e.data ++ ['\n']))

/-- No leading or trailing whitespace. -/
def noEdgeWsB (l : List Char) : Bool :=
  (match l.head? with | none => true | some c => !c.isWhitespace) &&
  (match l.getLast? with | none => true | some c => !c.isWhitespace)

/-- A queue entry as the program writes them: a single line with no
embedded newline and no leading or trailing whitespace. -/
def WfEntry (e : String) : Prop :=
  ('\n' ∉ e.data) ∧ noEdgeWsB e.data = true

instance (e : String) : Decidable (WfEntry e) := by
  unfold WfEntry; infer_instance

/-! ## Configuration and classifier -/

/-- `ConversionConfig` dataclass. -/
structure ConversionConfig where
  container : String
  container_extension : String
  video_codec : String
  video_width : Int
  video_height : Int
  ffmpeg_extra_opts : String
  ffmpeg_encode : String
  ffmpeg_resize : String

/-- The truthiness-relevant Python values the `needs_resize` expression can
take: `video_track.height and int(video_track.height) > max` yields `None`
when the height attribute is `None`, the integer `0` when it is zero, and a
`bool` otherwise. -/
inductive PyFlag where
  | pyBool (b : Bool)
  | pyNone
  | pyInt (n : Int)
  deriving DecidableEq, Repr

/-- Python truthiness of a flag value. -/
def PyFlag.truthy : PyFlag → Bool
  | .pyBool b => b
  | .pyNone => false
  | .pyInt n => n != 0

/-- Python `f"{b}"` rendering of a bool. -/
def pyBoolStr (b : Bool) : String :=
  if b then "True" else "False"

/-- Python `f"{v}"` rendering of a flag value. -/
def PyFlag.render : PyFlag → String
  | .pyBool b => pyBoolStr b
  | .pyNone => "None"
  | .pyInt n => toString n

/-- The video track data the probe exposes to `analyze_video`:
`track.format` and `track.height` (which may be absent). -/
structure VideoTrack where
  format : String
  height : Option Int
  deriving DecidableEq, Repr

/-- The probe result `analyze_video` consumes: `none` when
`MediaInfo.parse` raises, otherwise the optional General-track format
string and the optional video track. -/
def ProbeResult : Type := Option (Option String × Option VideoTrack)

/-- The Python expression
`video_track.height and int(video_track.height) > self.config.video_height`. -/
def needsResizeVal (height : Option Int) (maxH : Int) : PyFlag :=
  match height with
  | none => .pyNone
  | some h => if h = 0 then .pyInt 0 else .pyBool (decide (h > maxH))

/-- `MediaFixer.analyze_video`: returns
`(result, needs_container, needs_encode, needs_resize)` with result
0 = failed, 1 = needs work, 2 = skip. -/
def analyze_video (cfg : ConversionConfig) (probe : ProbeResult) :
    Nat × Bool × Bool × PyFlag :=
  match probe with
  | none => (0, false, false, .pyBool false)
  | some (g, v) =>
    match v, g with
    | some video_track, some general_format =>
      let needs_container : Bool := general_format != cfg.container
      let needs_encode : Bool := video_track.format != cfg.video_codec
      let needs_resize : PyFlag := needsResizeVal video_track.height cfg.video_height
      if needs_container || needs_encode || needs_resize.truthy then
        (1, needs_container, needs_encode, needs_resize)
      else
        (2, false, false, .pyBool false)
    | _, _ => (0, false, false, .pyBool false)

/-! ## Scan-phase routing -/

/-- The work-item entry string built in `scan_videos`:
`f"{str_path}|||| {needs_container} {needs_encode} {needs_resize}"`. -/
def workItemEntry (str_path : String) (nc needs_enc : Bool) (nr : PyFlag) : String :=
  str_path ++ "|||| " ++ pyBoolStr nc ++ " " ++ pyBoolStr needs_enc ++ " " ++ nr.render

/-- The queue-routing of one video file in `scan_videos`: `result == 0`
goes to `failed`, `result == 2` to `skipped`, anything else is encoded as a
work item and appended to `in_progress`. -/
def scanRoute (qm : QueueManager) (st : Store) (str_path : String)
    (a : Nat × Bool × Bool × PyFlag) : Except PyErr Store :=
  if a.1 = 0 then qm.add_to_queue st "failed" str_path
  else if a.1 = 2 then qm.add_to_queue st "skipped" str_path
  else qm.add_to_queue st "in_progress" (workItemEntry str_path a.2.1 a.2.2.1 a.2.2.2)

/-- One video file's handling in `scan_videos`: classify, then route. -/
def scanVideoFile (cfg : ConversionConfig) (qm : QueueManager) (st : Store)
    (str_path : String) (probe : ProbeResult) : Except PyErr Store :=
  scanRoute qm st str_path (analyze_video cfg probe)

/-! ## Path arithmetic (`pathlib`) -/

/-- Index just after the last `'/'` of a path (0 when there is none). -/
def dirSplitIdx (p : List Char) : Nat :=
  match p.reverse.findIdx? (· = '/') with
  | none => 0
  | some r => p.length - r

/-- The directory part of a path, trailing slash included. -/
def dirPart (p : List Char) : List Char := p.take (dirSplitIdx p)

/-- The final component of a path (`Path.name`). -/
def filePart (p : List Char) : List Char := p.drop (dirSplitIdx p)

/-- `PurePath.stem` on a file name: drop the last extension; a dot that is
the first or the last character of the name does not open an extension. -/
def stemOf (name : List Char) : List Char :=
  match name.reverse.findIdx? (· = '.') with
  | none => name
  | some ridx =>
    let i := name.length - 1 - ridx
    if 0 < i ∧ 0 < ridx then name.take i else name

/-- `Path.with_name`: replace the final component. -/
def with_name (p : String) (n : String) : String :=
  String.mk (dirPart p.data ++ n.data)

/-- `Path.with_suffix`: replace (or add) the last extension. -/
def with_suffix (p : String) (suf : String) : String :=
  String.mk (dirPart p.data ++ stemOf (filePart p.data) ++ suf.data)

/-- `Path.stem` of a full path, as a string. -/
def pathStem (p : String) : String := String.mk (stemOf (filePart p.data))

/-- The private working copy `process_video` creates:
`path.with_name(f"{path.stem}.mediafixer_working")`. -/
def working_file (filepath : String) : String :=
  with_name filepath (pathStem filepath ++ ".mediafixer_working")

/-- The transmux output file of `_transmux_video`. -/
def tmuxedPath (wf : String) (ext : String) : String :=
  with_name wf (pathStem wf ++ ".tmuxed." ++ ext)

/-- The encode output file of `_encode_video`. -/
def encodedPath (wf : String) (ext : String) : String :=
  with_name wf (pathStem wf ++ ".encoded." ++ ext)

/-- `os.replace`/`Path.replace`: move the file at `src` onto `dst`. -/
def pyReplace (st : Store) (src dst : String) : Store :=
  match st src with
  | none => st
  | some c => storeErase (storeWrite st dst c) src

/-! ## process_video -/

/-- Outcome oracle for the external `ffmpeg` invocations on one item:
`none` models a non-zero exit status, `some c` a success whose output file
holds content `c`. -/
structure ToolOracle where
  tmux : Option (List Char)
  enc : Option (List Char)

/-- `MediaFixer.process_video` (the `test_only = False` path): copy the
original to the working file; transmux if the container must change;
encode if codec or size must change; on success rename the working file to
the final path and unlink the original when the name changed; on any step
failure return `False`, leaving the original file untouched.  A missing
source file makes `shutil.copy2` raise, which the `except` turns into
`False`. -/
def process_video (ext : String) (oracle : ToolOracle) (fs : Store)
    (filepath : String) (needs_container needs_encode needs_resize : Bool) :
    Bool × Store :=
  match fs filepath with
  | none => (false, fs)
  | some content =>
    let wf := working_file filepath
    let fs1 := storeWrite fs wf content
    let step1 : Option Store :=
      if needs_container then
        match oracle.tmux with
        | none => none
        | some c =>
          some (pyReplace (storeWrite fs1 (tmuxedPath wf ext) c) (tmuxedPath wf ext) wf)
      else some fs1
    match step1 with
    | none => (false, fs1)
    | some fs2 =>
      let step2 : Option Store :=
        if needs_encode || needs_resize then
          match oracle.enc with
          | none => none
          | some c =>
            some (pyReplace (storeWrite fs2 (encodedPath wf ext) c) (encodedPath wf ext) wf)
        else some fs2
      match step2 with
      | none => (false, fs2)
      | some fs3 =>
        let final_path := with_suffix filepath ("." ++ ext)
        let fs4 := pyReplace fs3 wf final_path
        let fs5 := if final_path ≠ filepath then storeErase fs4 filepath else fs4
        (true, fs5)

/-! ## The main work loop -/

/-- Parsing of a popped work-queue entry in `main`:
`filepath, flags = entry.split('||||')` (exactly two parts or
`ValueError`), then `flags.strip().split()` must give exactly three
tokens, each compared to the literal `'True'` after stripping. -/
def parseEntry (entry : String) : Except PyErr (String × Bool × Bool × Bool) :=
  match splitQuad entry.data with
  | [fp, fl] =>
    match pySplitWs (pythonStrip fl) with
    | [a, b, c] =>
      .ok (String.mk (pythonStrip fp),
           pythonStrip a = "True".data,
           pythonStrip b = "True".data,
           pythonStrip c = "True".data)
    | _ => .error .valueError
  | _ => .error .valueError

/-- Result of one iteration of the `while True` loop in `main`. -/
inductive IterResult where
  | next (s : Store)
  | done (s : Store)
  | err (e : PyErr)

/-- One iteration of the work loop in `main`: pop from `in_progress`
(`None` or an empty entry breaks the loop), parse the entry, and when at
least one flag is true run `process_video` and append the entry to
`completed` or `failed`; with all flags false nothing is recorded. -/
def workIteration (ext : String) (oracle : String → ToolOracle)
    (qm : QueueManager) (st : Store) : IterResult :=
  match qm.pop_from_queue st "in_progress" with
  | .error e => .err e
  | .ok (none, s) => .done s
  | .ok (some entry, s) =>
    if entry = "" then .done s
    else
      match parseEntry entry with
      | .error e => .err e
      | .ok (filepath, nc, nEnc, nRes) =>
        if nc || nEnc || nRes then
          let r := process_video ext (oracle filepath) s filepath nc nEnc nRes
          match qm.add_to_queue r.2 (if r.1 then "completed" else "failed") entry with
          | .error e => .err e
          | .ok s2 => .next s2
        else .next s

/-- The work loop of `main`, fuel-indexed (each iteration removes a line
from `in_progress`, so any fuel at least the initial queue length runs the
loop to completion). -/
def workLoop (ext : String) (oracle : String → ToolOracle)
    (qm : QueueManager) : Nat → Store → Except PyErr Store
  | 0, s => .ok s
  | n + 1, s =>
    match workIteration ext oracle qm s with
    | .done s2 => .ok s2
    | .err e => .error e
    | .next s2 => workLoop ext oracle qm n s2

/-! ## Startup phase of `main` (queue re-initialisation and retry) -/

/-- The drain loop of the `--retry-failed` branch: pop entries from
`failed` into a list until `pop_from_queue` returns a falsy value. -/
def drainFailed (qm : QueueManager) : Nat → Store → List String →
    Except PyErr (List String × Store)
  | 0, s, acc => .ok (acc, s)
  | n + 1, s, acc =>
    match qm.pop_from_queue s "failed" with
    | .error e => .error e
    | .ok (none, s2) => .ok (acc, s2)
    | .ok (some e, s2) =>
      if e = "" then .ok (acc, s2)
      else drainFailed qm n s2 (acc ++ [e])

/-- Requeue all drained `failed` entries into `in_progress`. -/
def requeueAll (qm : QueueManager) (st : Store) :
    List String → Except PyErr Store
  | [] => .ok st
  | e :: rest =>
    match qm.add_to_queue st "in_progress" e with
    | .error er => .error er
    | .ok s2 => requeueAll qm s2 rest

/-- The queue-(re)initialisation block of `main` before the scan: when
`--force` is given or the `in_progress` queue is empty, truncate all
queues with `initialize_queues` and only then, if `--retry-failed` is
given, drain `failed` and requeue its entries into `in_progress`. -/
def initPhase (qm : QueueManager) (st : Store) (force retry_failed : Bool)
    (fuel : Nat) : Except PyErr Store :=
  if force || qm.get_queue_length st "in_progress" = 0 then
    let s1 := qm.init_queues st
    if retry_failed then
      match drainFailed qm fuel s1 [] with
      | .error e => .error e
      | .ok (entries, s2) => requeueAll qm s2 entries
    else .ok s1
  else .ok st

/-! ## Foundational lemmas -/

/-- All entries of a queue are well-formed lines. -/
def WfQueue (es : List String) : Prop := ∀ e ∈ es, WfEntry e

instance (es : List String) : Decidable (WfQueue es) := by
  unfold WfQueue; infer_instance

theorem joinChars_cons (l : List Char) (ls : List (List Char)) :
    joinChars (l :: ls) = l ++ joinChars ls := rfl

theorem joinChars_append (a b : List (List Char)) :
    joinChars (a ++ b) = joinChars a ++ joinChars b := by
  induction a with
  | nil => rfl
  | cons l a ih => simp [joinChars_cons, ih, List.append_assoc]

theorem queueContentOf_cons (e : String) (es : List String) :
    queueContentOf (e :: es) = e.data ++ '\n' :: queueContentOf es := by
  simp [queueContentOf, joinChars_cons, List.append_assoc]

theorem queueContentOf_append (a b : List String) :
    queueContentOf (a ++ b) = queueContentOf a ++ queueContentOf b := by
  simp [queueContentOf, joinChars_append]

theorem readlinesAux_line {l : List Char} (h : '\n' ∉ l) (rest acc : List Char) :
    readlinesAux (l ++ '\n' :: rest) acc
      = (acc.reverse ++ (l ++ ['\n'])) :: readlinesAux rest [] := by
  induction l generalizing acc with
  | nil => simp [readlinesAux]
  | cons c l ih =>
    have hc : ¬(c = '\n') := fun hcn => h (hcn ▸ List.mem_cons_self c l)
    have h2 : '\n' ∉ l := fun hm => h (List.mem_cons_of_mem c hm)
    have step : readlinesAux ((c :: l) ++ '\n' :: rest) acc
        = readlinesAux (l ++ '\n' :: rest) (c :: acc) := by
      rw [List.cons_append]
      simp [readlinesAux, hc]
    rw [step, ih h2]
    simp

theorem readlines_contentOf {es : List String} (h : ∀ e ∈ es, '\n' ∉ e.data) :
    pythonReadlines (queueContentOf es) = es.map (fun e => e.data ++ ['\n']) := by
  induction es with
  | nil => rfl
  | cons e es ih =>
    rw [queueContentOf_cons, pythonReadlines,
        readlinesAux_line (h e (List.mem_cons_self e es))]
    simp only [List.reverse_nil, List.nil_append, List.map_cons]
    rw [← pythonReadlines, ih (fun x hx => h x (List.mem_cons_of_mem e hx))]

theorem strip_line {l : List Char} (h : noEdgeWsB l = true) :
    pythonStrip (l ++ ['\n']) = l := by
  unfold pythonStrip
  cases l with
  | nil => simp [List.dropWhile]
  | cons c m =>
    have hc : c.isWhitespace = false := by
      unfold noEdgeWsB at h
      simp only [List.head?_cons, Bool.and_eq_true, Bool.not_eq_true'] at h
      exact h.1
    have hlast : ∀ x, (c :: m).getLast? = some x → x.isWhitespace = false := by
      intro x hx
      unfold noEdgeWsB at h
      simp only [List.head?_cons, hx, Bool.and_eq_true, Bool.not_eq_true'] at h
      exact h.2
    have h1 : List.dropWhile Char.isWhitespace ((c :: m) ++ ['\n'])
        = (c :: m) ++ ['\n'] := by
      rw [List.cons_append, List.dropWhile_cons, if_neg (by simp [hc])]
    rw [h1, List.reverse_append]
    rw [show (['\n'] : List Char).reverse = ['\n'] from rfl, List.singleton_append,
        List.dropWhile_cons, if_pos (by decide)]
    obtain ⟨d, t, hdt⟩ := List.exists_cons_of_ne_nil
      (show (c :: m).reverse ≠ [] by simp)
    have hd : (c :: m).getLast? = some d := by
      rw [← List.head?_reverse, hdt]; rfl
    have hdws := hlast d hd
    rw [hdt, List.dropWhile_cons, if_neg (by simp [hdws]), ← hdt, List.reverse_reverse]

theorem map_strip_line {es : List String} (hwf : WfQueue es) :
    (es.map (fun e => e.data ++ ['\n'])).map (fun l => String.mk (pythonStrip l)) = es := by
  induction es with
  | nil => rfl
  | cons e es ih =>
    have he := hwf e (List.mem_cons_self e es)
    simp only [List.map_cons]
    rw [strip_line he.2, ih (fun x hx => hwf x (List.mem_cons_of_mem e hx))]

/-! ### Store lemmas -/

theorem storeWrite_self (st : Store) (p : String) (c : List Char) :
    storeWrite st p c p = some c := by simp [storeWrite]

theorem storeWrite_ne (st : Store) (p : String) (c : List Char) {q : String}
    (h : q ≠ p) : storeWrite st p c q = st q := by simp [storeWrite, h]

theorem storeErase_ne (st : Store) (p : String) {q : String}
    (h : q ≠ p) : storeErase st p q = st q := by simp [storeErase, h]

/-! ### Queue-name lemmas -/

theorem getQueueFile_inj (qm : QueueManager) {a b : String}
    (h : qm.getQueueFile a = qm.getQueueFile b) : a = b := by
  unfold QueueManager.getQueueFile at h
  have h2 := congrArg String.data h
  simp only [String.data_append, List.append_assoc] at h2
  have h3 := List.append_cancel_left h2
  have h4 := List.append_cancel_left h3
  have h5 := List.append_cancel_left h4
  have h6 := List.append_cancel_left h5
  have : String.mk a.data = String.mk b.data := congrArg String.mk h6
  exact this

theorem getQueueFile_ne (qm : QueueManager) {a b : String} (h : a ≠ b) :
    qm.getQueueFile a ≠ qm.getQueueFile b :=
  fun hEq => h (getQueueFile_inj qm hEq)

theorem lookup_skipped (qm : QueueManager) :
    (qm.queues).lookup "skipped" = some (qm.getQueueFile "skipped") := rfl

theorem lookup_failed (qm : QueueManager) :
    (qm.queues).lookup "failed" = some (qm.getQueueFile "failed") := rfl

theorem lookup_completed (qm : QueueManager) :
    (qm.queues).lookup "completed" = some (qm.getQueueFile "completed") := rfl

theorem lookup_in_progress (qm : QueueManager) :
    (qm.queues).lookup "in_progress" = some (qm.getQueueFile "in_progress") := rfl

theorem lookup_leftovers (qm : QueueManager) :
    (qm.queues).lookup "leftovers" = some (qm.getQueueFile "leftovers") := rfl

theorem lookup_pending (qm : QueueManager) :
    (qm.queues).lookup "pending" = none := rfl

/-! ### Queue-operation lemmas on well-formed content -/

theorem pop_from_queue_wf (qm : QueueManager) (st : Store) (name file : String)
    (hq : (qm.queues).lookup name = some file)
    (e : String) (es : List String)
    (hst : st file = some (queueContentOf (e :: es)))
    (hwf : WfQueue (e :: es)) :
    qm.pop_from_queue st name
      = .ok (some e, storeWrite st file (queueContentOf es)) := by
  unfold QueueManager.pop_from_queue
  simp only [hq, hst]
  rw [readlines_contentOf (fun x hx => (hwf x hx).1)]
  simp only [List.map_cons]
  rw [strip_line (hwf e (List.mem_cons_self e es)).2]
  rfl

theorem add_to_queue_wf (qm : QueueManager) (st : Store) (name file : String)
    (hq : (qm.queues).lookup name = some file)
    (es : List String)
    (hst : st file = some (queueContentOf es)) (entry : String) :
    qm.add_to_queue st name entry
      = .ok (storeWrite st file (queueContentOf (es ++ [entry]))) := by
  unfold QueueManager.add_to_queue storeAppend
  simp only [hq, hst]
  rw [queueContentOf_append,
      show queueContentOf [entry] = entry.data ++ ['\n'] by
        simp [queueContentOf, joinChars]]

theorem queueEntries_wf (qm : QueueManager) (st : Store) (name file : String)
    (hq : (qm.queues).lookup name = some file)
    (es : List String)
    (hst : st file = some (queueContentOf es)) (hwf : WfQueue es) :
    queueEntries qm st name = es := by
  unfold queueEntries
  simp only [hq, hst]
  rw [readlines_contentOf (fun x hx => (hwf x hx).1), map_strip_line hwf]

theorem storeAppend_ne (st : Store) (p : String) (s : List Char) {q : String}
    (h : q ≠ p) : storeAppend st p s q = st q := by
  unfold storeAppend
  exact storeWrite_ne st p _ h

theorem storeWrite_write (st : Store) (f : String) (a b : List Char) :
    storeWrite (storeWrite st f a) f b = storeWrite st f b := by
  funext q
  unfold storeWrite
  by_cases h : q = f <;> simp [h]

theorem storeWrite_of_lookup {st : Store} {f : String} {c : List Char}
    (h : st f = some c) : storeWrite st f c = st := by
  funext q
  unfold storeWrite
  by_cases hq : q = f
  · subst hq; rw [if_pos rfl, h]
  · rw [if_neg hq]

theorem lookup_eq_getQueueFile (qm : QueueManager) {name file : String}
    (hq : (qm.queues).lookup name = some file) : file = qm.getQueueFile name := by
  by_cases h1 : name = "skipped"
  · subst h1; rw [lookup_skipped] at hq; exact (Option.some.inj hq).symm
  by_cases h2 : name = "failed"
  · subst h2; rw [lookup_failed] at hq; exact (Option.some.inj hq).symm
  by_cases h3 : name = "completed"
  · subst h3; rw [lookup_completed] at hq; exact (Option.some.inj hq).symm
  by_cases h4 : name = "in_progress"
  · subst h4; rw [lookup_in_progress] at hq; exact (Option.some.inj hq).symm
  by_cases h5 : name = "leftovers"
  · subst h5; rw [lookup_leftovers] at hq; exact (Option.some.inj hq).symm
  have hnone : (qm.queues).lookup name = none := by
    unfold QueueManager.queues
    have e1 : (name == "skipped") = false := beq_eq_false_iff_ne.mpr h1
    have e2 : (name == "failed") = false := beq_eq_false_iff_ne.mpr h2
    have e3 : (name == "completed") = false := beq_eq_false_iff_ne.mpr h3
    have e4 : (name == "in_progress") = false := beq_eq_false_iff_ne.mpr h4
    have e5 : (name == "leftovers") = false := beq_eq_false_iff_ne.mpr h5
    simp [List.lookup, e1, e2, e3, e4, e5]
  rw [hnone] at hq
  cases hq

theorem queueEntries_congr (qm : QueueManager) {s2 st : Store} (name : String)
    (h : ∀ file, (qm.queues).lookup name = some file → s2 file = st file) :
    queueEntries qm s2 name = queueEntries qm st name := by
  unfold queueEntries
  cases hq : (qm.queues).lookup name with
  | none => rfl
  | some file =>
    dsimp only
    rw [h file hq]

/-! ## Concrete fixtures used by witnesses and counterexamples -/

/-- The default `ConversionConfig` built in `MediaFixer.__init__` when no
environment variable overrides are present. -/
def cfgDefault : ConversionConfig :=
  { container := "Matroska"
    container_extension := "mkv"
    video_codec := "AV1"
    video_width := 1280
    video_height := 720
    ffmpeg_extra_opts := "-fflags +genpts -nostdin -find_stream_info"
    ffmpeg_encode := "-c:v libsvtav1 -crf 38 -preset 8 -g 240 -pix_fmt yuv420p -map 0 -map -0:d -c:a copy -c:s copy"
    ffmpeg_resize := "-vf \"scale=${VIDEO_WIDTH}:${VIDEO_HEIGHT}:flags=lanczos,format=yuv420p\"" }

/-- A queue manager over directory `/q` with empty prefix. -/
def qmX : QueueManager := ⟨"/q", ""⟩

/-- A filesystem with no files. -/
def emptyStore : Store := fun _ => none

/-! ## Claim C6 -/

/-- C6: popping the front of an empty (or missing) queue file returns the
empty result rather than raising, and asking the length of a queue whose
backing file does not exist returns 0. -/
theorem C6_pop_empty_and_missing_length (qm : QueueManager) (st : Store)
    (name file : String) (hq : (qm.queues).lookup name = some file)
    (hempty : st file = none ∨ st file = some []) :
    qm.pop_from_queue st name = .ok (none, st) ∧
    (st file = none → qm.get_queue_length st name = 0) := by
  constructor
  · unfold QueueManager.pop_from_queue
    rcases hempty with h | h <;> simp [hq, h, pythonReadlines, readlinesAux]
  · intro h
    unfold QueueManager.get_queue_length
    simp [hq, h]

/-- C6 witness: the `failed` queue of an empty filesystem. -/
theorem C6_pop_empty_and_missing_length_witness :
    qmX.pop_from_queue emptyStore "failed" = .ok (none, emptyStore) ∧
    (emptyStore (qmX.getQueueFile "failed") = none →
      qmX.get_queue_length emptyStore "failed" = 0) :=
  C6_pop_empty_and_missing_length qmX emptyStore "failed"
    (qmX.getQueueFile "failed") rfl (Or.inl rfl)

/-! ## Claim C9 -/

/-- C9: on a queue name outside the managed set, `get_queue_length`
returns 0 as if the queue were empty, while `add_to_queue` and
`pop_from_queue` raise `KeyError`; the three operations disagree. -/
theorem C9_unknown_name_disagreement (qm : QueueManager) (st : Store)
    (name entry : String) (h : (qm.queues).lookup name = none) :
    qm.get_queue_length st name = 0 ∧
    qm.add_to_queue st name entry = .error .keyError ∧
    qm.pop_from_queue st name = .error .keyError := by
  refine ⟨?_, ?_, ?_⟩
  · unfold QueueManager.get_queue_length; rw [h]
  · unfold QueueManager.add_to_queue; rw [h]
  · unfold QueueManager.pop_from_queue; rw [h]

/-- C9 witness: the name `pending` is not a managed queue. -/
theorem C9_unknown_name_disagreement_witness :
    qmX.get_queue_length emptyStore "pending" = 0 ∧
    qmX.add_to_queue emptyStore "pending" "x.mp4" = .error .keyError ∧
    qmX.pop_from_queue emptyStore "pending" = .error .keyError :=
  C9_unknown_name_disagreement qmX emptyStore "pending" "x.mp4" rfl

/-! ## Claim C8 -/

/-- C8 counterexample: the store manages five queues, not six; there is no
queue named `pending` nor `leftover` (the fifth is `leftovers`), and the
backing file for `failed` is `<prefix>mediafixer_queue.failed`, not
`<prefix>queue.failed`. -/
theorem C8_counterexample :
    (qmX.queues).lookup "pending" = none ∧
    (qmX.queues).lookup "leftover" = none ∧
    (qmX.queues).map Prod.fst
      = ["skipped", "failed", "completed", "in_progress", "leftovers"] ∧
    qmX.getQueueFile "failed" = "/q/mediafixer_queue.failed" ∧
    qmX.getQueueFile "failed" ≠ "/q/" ++ "queue.failed" := by
  refine ⟨rfl, rfl, rfl, rfl, by decide⟩

/-- C8 amended: the queue store manages exactly the five queues named
skipped, failed, completed, in_progress and leftovers, each backed by a
file named `<prefix>mediafixer_queue.<name>` under the configured
directory, and each appended entry is written as one line with a trailing
newline. -/
theorem C8_amended_five_queues (qm : QueueManager) (st : Store)
    (name entry file : String) (hq : (qm.queues).lookup name = some file) :
    (qm.queues).map Prod.fst
      = ["skipped", "failed", "completed", "in_progress", "leftovers"] ∧
    file = qm.queue_path ++ "/" ++ qm.pfx ++ "mediafixer_queue." ++ name ∧
    qm.add_to_queue st name entry
      = .ok (storeAppend st file (entry.data ++ ['\n'])) := by
  refine ⟨rfl, lookup_eq_getQueueFile qm hq, ?_⟩
  unfold QueueManager.add_to_queue
  rw [hq]

/-- C8 amended witness: the `failed` queue of the fixture manager. -/
theorem C8_amended_five_queues_witness :
    (qmX.queues).map Prod.fst
      = ["skipped", "failed", "completed", "in_progress", "leftovers"] ∧
    qmX.getQueueFile "failed"
      = qmX.queue_path ++ "/" ++ qmX.pfx ++ "mediafixer_queue." ++ "failed" ∧
    qmX.add_to_queue emptyStore "failed" "x.mp4"
      = .ok (storeAppend emptyStore (qmX.getQueueFile "failed")
          (("x.mp4").data ++ ['\n'])) :=
  C8_amended_five_queues qmX emptyStore "failed" "x.mp4"
    (qmX.getQueueFile "failed") rfl

/-! ## Claim C5 -/

/-- C5: a file whose container, codec and height already satisfy the
policy is classified `Skip` (result 2) with all three need-flags false,
the scan appends it only to `skipped`, and the work and failed queues are
untouched; the height comparison is strictly greater-than, so a height
exactly equal to the configured maximum does not trigger resize. -/
theorem C5_skip_when_policy_satisfied (cfg : ConversionConfig)
    (qm : QueueManager) (st : Store) (path gf vf : String) (h : Int)
    (hgf : gf = cfg.container) (hvf : vf = cfg.video_codec)
    (hh : h ≤ cfg.video_height) :
    analyze_video cfg (some (some gf, some ⟨vf, some h⟩))
      = (2, false, false, .pyBool false) ∧
    scanVideoFile cfg qm st path (some (some gf, some ⟨vf, some h⟩))
      = .ok (storeAppend st (qm.getQueueFile "skipped") (path.data ++ ['\n'])) ∧
    storeAppend st (qm.getQueueFile "skipped") (path.data ++ ['\n'])
        (qm.getQueueFile "in_progress") = st (qm.getQueueFile "in_progress") ∧
    storeAppend st (qm.getQueueFile "skipped") (path.data ++ ['\n'])
        (qm.getQueueFile "failed") = st (qm.getQueueFile "failed") := by
  have hnr : (needsResizeVal (some h) cfg.video_height).truthy = false := by
    rw [show needsResizeVal (some h) cfg.video_height
        = if h = 0 then .pyInt 0 else .pyBool (decide (h > cfg.video_height)) from rfl]
    by_cases h0 : h = 0
    · simp [h0, PyFlag.truthy]
    · rw [if_neg h0]
      show decide (h > cfg.video_height) = false
      simp only [decide_eq_false_iff_not, gt_iff_lt, not_lt]
      exact hh
  have ha : analyze_video cfg (some (some gf, some ⟨vf, some h⟩))
      = (2, false, false, .pyBool false) := by
    subst hgf hvf
    simp [analyze_video, hnr]
  refine ⟨ha, ?_, ?_, ?_⟩
  · unfold scanVideoFile scanRoute
    rw [ha]
    norm_num
    unfold QueueManager.add_to_queue
    rw [lookup_skipped]
  · exact storeAppend_ne st _ _ (getQueueFile_ne qm (by decide))
  · exact storeAppend_ne st _ _ (getQueueFile_ne qm (by decide))

/-- C5 witness: a Matroska/AV1 file of height exactly 720 under the
default policy. -/
theorem C5_skip_when_policy_satisfied_witness :
    analyze_video cfgDefault (some (some "Matroska", some ⟨"AV1", some 720⟩))
      = (2, false, false, .pyBool false) ∧
    scanVideoFile cfgDefault qmX emptyStore "/a/v.mkv"
        (some (some "Matroska", some ⟨"AV1", some 720⟩))
      = .ok (storeAppend emptyStore (qmX.getQueueFile "skipped")
          (("/a/v.mkv").data ++ ['\n'])) ∧
    storeAppend emptyStore (qmX.getQueueFile "skipped") (("/a/v.mkv").data ++ ['\n'])
        (qmX.getQueueFile "in_progress") = emptyStore (qmX.getQueueFile "in_progress") ∧
    storeAppend emptyStore (qmX.getQueueFile "skipped") (("/a/v.mkv").data ++ ['\n'])
        (qmX.getQueueFile "failed") = emptyStore (qmX.getQueueFile "failed") :=
  C5_skip_when_policy_satisfied cfgDefault qmX emptyStore "/a/v.mkv"
    "Matroska" "AV1" 720 rfl rfl (by decide)

/-! ## Claim C3 -/

/-- C3 counterexample: a file needing work is appended to the
`in_progress` queue, and no queue named `pending` exists, so the
NeedsWork-entries-go-to-pending part of the claim is false as stated. -/
theorem C3_counterexample :
    (qmX.queues).lookup "pending" = none ∧
    analyze_video cfgDefault (some (some "MP4", some ⟨"H264", some 1080⟩))
      = (1, true, true, .pyBool true) ∧
    scanVideoFile cfgDefault qmX emptyStore "/a/v.mp4"
        (some (some "MP4", some ⟨"H264", some 1080⟩))
      = .ok (storeAppend emptyStore (qmX.getQueueFile "in_progress")
          (("/a/v.mp4|||| True True True").data ++ ['\n'])) :=
  ⟨rfl, by decide, by rfl⟩

/-- C3 amended: each classified file is routed to exactly one queue:
result 0 (Invalid) appends the path to `failed`, result 2 (Skip) appends
it to `skipped`, and result 1 (NeedsWork) appends the encoded work item to
`in_progress` (the work queue; no queue named `pending` exists); in each
case the other two routing queues are untouched. -/
theorem C3_amended_scan_routing (cfg : ConversionConfig) (qm : QueueManager)
    (st : Store) (path : String) (probe : ProbeResult) :
    ∃ s2, scanVideoFile cfg qm st path probe = .ok s2 ∧
      ((analyze_video cfg probe).1 = 0 →
        s2 = storeAppend st (qm.getQueueFile "failed") (path.data ++ ['\n']) ∧
        s2 (qm.getQueueFile "skipped") = st (qm.getQueueFile "skipped") ∧
        s2 (qm.getQueueFile "in_progress") = st (qm.getQueueFile "in_progress")) ∧
      ((analyze_video cfg probe).1 = 2 →
        s2 = storeAppend st (qm.getQueueFile "skipped") (path.data ++ ['\n']) ∧
        s2 (qm.getQueueFile "failed") = st (qm.getQueueFile "failed") ∧
        s2 (qm.getQueueFile "in_progress") = st (qm.getQueueFile "in_progress")) ∧
      ((analyze_video cfg probe).1 = 1 →
        s2 = storeAppend st (qm.getQueueFile "in_progress")
              ((workItemEntry path (analyze_video cfg probe).2.1
                  (analyze_video cfg probe).2.2.1
                  (analyze_video cfg probe).2.2.2).data ++ ['\n']) ∧
        s2 (qm.getQueueFile "failed") = st (qm.getQueueFile "failed") ∧
        s2 (qm.getQueueFile "skipped") = st (qm.getQueueFile "skipped")) := by
  unfold scanVideoFile scanRoute
  by_cases h0 : (analyze_video cfg probe).1 = 0
  · refine ⟨storeAppend st (qm.getQueueFile "failed") (path.data ++ ['\n']),
      ?_, fun _ => ⟨rfl, ?_, ?_⟩, fun h2 => absurd h2 (by omega), fun h1 => absurd h1 (by omega)⟩
    · rw [if_pos h0]
      unfold QueueManager.add_to_queue
      rw [lookup_failed]
    · exact storeAppend_ne st _ _ (getQueueFile_ne qm (by decide))
    · exact storeAppend_ne st _ _ (getQueueFile_ne qm (by decide))
  by_cases h2 : (analyze_video cfg probe).1 = 2
  · refine ⟨storeAppend st (qm.getQueueFile "skipped") (path.data ++ ['\n']),
      ?_, fun h0x => absurd h0x (by omega), fun _ => ⟨rfl, ?_, ?_⟩,
      fun h1 => absurd h1 (by omega)⟩
    · rw [if_neg h0, if_pos h2]
      unfold QueueManager.add_to_queue
      rw [lookup_skipped]
    · exact storeAppend_ne st _ _ (getQueueFile_ne qm (by decide))
    · exact storeAppend_ne st _ _ (getQueueFile_ne qm (by decide))
  · refine ⟨storeAppend st (qm.getQueueFile "in_progress")
        ((workItemEntry path (analyze_video cfg probe).2.1
            (analyze_video cfg probe).2.2.1
            (analyze_video cfg probe).2.2.2).data ++ ['\n']),
      ?_, fun h0x => absurd h0x h0, fun h2x => absurd h2x h2, fun _ => ⟨rfl, ?_, ?_⟩⟩
    · rw [if_neg h0, if_neg h2]
      unfold QueueManager.add_to_queue
      rw [lookup_in_progress]
    · exact storeAppend_ne st _ _ (getQueueFile_ne qm (by decide))
    · exact storeAppend_ne st _ _ (getQueueFile_ne qm (by decide))

/-- C3 amended witness: an invalid probe result is routed to `failed`. -/
theorem C3_amended_scan_routing_witness :
    ∃ s2, scanVideoFile cfgDefault qmX emptyStore "/a/bad.mp4" none = .ok s2 ∧
      ((analyze_video cfgDefault none).1 = 0 →
        s2 = storeAppend emptyStore (qmX.getQueueFile "failed")
              (("/a/bad.mp4").data ++ ['\n']) ∧
        s2 (qmX.getQueueFile "skipped") = emptyStore (qmX.getQueueFile "skipped") ∧
        s2 (qmX.getQueueFile "in_progress")
          = emptyStore (qmX.getQueueFile "in_progress")) ∧
      ((analyze_video cfgDefault none).1 = 2 →
        s2 = storeAppend emptyStore (qmX.getQueueFile "skipped")
              (("/a/bad.mp4").data ++ ['\n']) ∧
        s2 (qmX.getQueueFile "failed") = emptyStore (qmX.getQueueFile "failed") ∧
        s2 (qmX.getQueueFile "in_progress")
          = emptyStore (qmX.getQueueFile "in_progress")) ∧
      ((analyze_video cfgDefault none).1 = 1 →
        s2 = storeAppend emptyStore (qmX.getQueueFile "in_progress")
              ((workItemEntry "/a/bad.mp4" (analyze_video cfgDefault none).2.1
                  (analyze_video cfgDefault none).2.2.1
                  (analyze_video cfgDefault none).2.2.2).data ++ ['\n']) ∧
        s2 (qmX.getQueueFile "failed") = emptyStore (qmX.getQueueFile "failed") ∧
        s2 (qmX.getQueueFile "skipped") = emptyStore (qmX.getQueueFile "skipped")) :=
  C3_amended_scan_routing cfgDefault qmX emptyStore "/a/bad.mp4" none

/-! ## Claim C7 -/

/-- Test driver: append all given entries to one queue in order. -/
def appendAll (qm : QueueManager) (st : Store) (name : String) :
    List String → Except PyErr Store
  | [] => .ok st
  | e :: rest =>
    match qm.add_to_queue st name e with
    | .error er => .error er
    | .ok s2 => appendAll qm s2 name rest

/-- Test driver: pop `n` times from one queue, collecting the results. -/
def popN (qm : QueueManager) : Nat → Store → String →
    Except PyErr (List (Option String) × Store)
  | 0, s, _ => .ok ([], s)
  | n + 1, s, name =>
    match qm.pop_from_queue s name with
    | .error e => .error e
    | .ok (v, s2) =>
      match popN qm n s2 name with
      | .error e => .error e
      | .ok (vs, s3) => .ok (v :: vs, s3)

theorem appendAll_wf (qm : QueueManager) (name file : String)
    (hq : (qm.queues).lookup name = some file) (entries : List String) :
    ∀ (st : Store) (pre : List String),
      st file = some (queueContentOf pre) →
      appendAll qm st name entries
        = .ok (storeWrite st file (queueContentOf (pre ++ entries))) := by
  induction entries with
  | nil =>
    intro st pre hst
    rw [List.append_nil]
    rw [appendAll, storeWrite_of_lookup hst]
  | cons e rest ih =>
    intro st pre hst
    have hred : appendAll qm st name (e :: rest)
        = appendAll qm (storeWrite st file (queueContentOf (pre ++ [e]))) name rest := by
      rw [appendAll, add_to_queue_wf qm st name file hq pre hst e]
    rw [hred,
        ih (storeWrite st file (queueContentOf (pre ++ [e]))) (pre ++ [e])
          (storeWrite_self st file _)]
    rw [storeWrite_write, List.append_assoc, List.singleton_append]

theorem popN_wf (qm : QueueManager) (name file : String)
    (hq : (qm.queues).lookup name = some file) (entries : List String) :
    ∀ (st : Store), st file = some (queueContentOf entries) →
      WfQueue entries →
      ∃ s2, popN qm entries.length st name = .ok (entries.map some, s2) ∧
        s2 file = some (queueContentOf []) := by
  induction entries with
  | nil =>
    intro st hst _
    exact ⟨st, rfl, hst⟩
  | cons e rest ih =>
    intro st hst hwf
    have hpop := pop_from_queue_wf qm st name file hq e rest hst hwf
    have hst2 : (storeWrite st file (queueContentOf rest)) file
        = some (queueContentOf rest) := storeWrite_self st file _
    obtain ⟨s2, hpn, hfile⟩ := ih (storeWrite st file (queueContentOf rest)) hst2
      (fun x hx => hwf x (List.mem_cons_of_mem e hx))
    refine ⟨s2, ?_, hfile⟩
    have hred : popN qm (e :: rest).length st name
        = match popN qm rest.length (storeWrite st file (queueContentOf rest)) name with
          | .error er => .error er
          | .ok (vs, s3) => .ok (some e :: vs, s3) := by
      rw [List.length_cons, popN, hpop]
    rw [hred, hpn]
    rfl

/-- C7: appending N well-formed entries (no newline, no leading or
trailing whitespace) to an initially empty queue and then popping N times
returns exactly those entries in order, and the queue length is 0
afterward. -/
theorem C7_round_trip (qm : QueueManager) (st : Store) (name file : String)
    (entries : List String)
    (hq : (qm.queues).lookup name = some file)
    (hst : st file = some [])
    (hwf : WfQueue entries) :
    ∃ s1 s2, appendAll qm st name entries = .ok s1 ∧
      popN qm entries.length s1 name = .ok (entries.map some, s2) ∧
      qm.get_queue_length s2 name = 0 := by
  have h1 := appendAll_wf qm name file hq entries st []
    (by rw [hst]; rfl)
  have hs1 : (storeWrite st file (queueContentOf ([] ++ entries))) file
      = some (queueContentOf entries) := by
    rw [List.nil_append]
    exact storeWrite_self st file _
  obtain ⟨s2, hpn, hfile⟩ := popN_wf qm name file hq entries
    (storeWrite st file (queueContentOf ([] ++ entries))) hs1 hwf
  refine ⟨_, s2, h1, hpn, ?_⟩
  unfold QueueManager.get_queue_length
  rw [hq]
  have h2 : s2 file = some [] := hfile
  simp [h2, pythonReadlines, readlinesAux]

/-- C7 witness: two entries round-trip through the `failed` queue. -/
theorem C7_round_trip_witness :
    ∃ s1 s2,
      appendAll qmX (storeWrite emptyStore (qmX.getQueueFile "failed") [])
          "failed" ["a.mp4", "b c.mkv"] = .ok s1 ∧
      popN qmX (["a.mp4", "b c.mkv"].length) s1 "failed"
        = .ok ((["a.mp4", "b c.mkv"]).map some, s2) ∧
      qmX.get_queue_length s2 "failed" = 0 :=
  C7_round_trip qmX (storeWrite emptyStore (qmX.getQueueFile "failed") [])
    "failed" (qmX.getQueueFile "failed") ["a.mp4", "b c.mkv"] rfl
    (storeWrite_self emptyStore _ _) (by decide)

/-! ## Claims C1 and C10 -/

theorem queueEntries_after_write_other (qm : QueueManager) (st : Store)
    (content : List Char) {a b : String} (hba : b ≠ a) :
    queueEntries qm (storeWrite st (qm.getQueueFile a) content) b
      = queueEntries qm st b := by
  apply queueEntries_congr
  intro f hf
  have hfe := lookup_eq_getQueueFile qm hf
  subst hfe
  exact storeWrite_ne st _ _ (getQueueFile_ne qm hba)

/-- Observation: the value component of a pop. -/
def popValue (qm : QueueManager) (st : Store) (name : String) :
    Except PyErr (Option String) :=
  (qm.pop_from_queue st name).map Prod.fst

/-- Observation: the store after a pop (unchanged on error). -/
def popStore (qm : QueueManager) (st : Store) (name : String) : Store :=
  match qm.pop_from_queue st name with
  | .ok (_, s) => s
  | .error _ => st

/-- Store fixture: all five queues initialised empty, then one work entry
in `in_progress`. -/
def c1Store : Store :=
  storeWrite (qmX.init_queues emptyStore) (qmX.getQueueFile "in_progress")
    (queueContentOf ["a.mp4|||| True False False"])

/-- C1 counterexample: there is no `pending` queue to pop from, and at the
concrete state holding one work item, the pop performed by the work loop
removes the item from `in_progress` without mirroring it anywhere — in the
post-pop state (the state in which the item is processed) the item is in
none of the five queues, rather than staying in `in_progress` until its
outcome is recorded. -/
theorem C1_counterexample :
    (qmX.queues).lookup "pending" = none ∧
    popValue qmX c1Store "in_progress" = .ok (some "a.mp4|||| True False False") ∧
    queueEntries qmX (popStore qmX c1Store "in_progress") "skipped" = [] ∧
    queueEntries qmX (popStore qmX c1Store "in_progress") "failed" = [] ∧
    queueEntries qmX (popStore qmX c1Store "in_progress") "completed" = [] ∧
    queueEntries qmX (popStore qmX c1Store "in_progress") "in_progress" = [] ∧
    queueEntries qmX (popStore qmX c1Store "in_progress") "leftovers" = [] := by
  refine ⟨rfl, by rfl, by decide, by decide, by decide, by decide, by decide⟩

/-- C1 amended: the work loop pops each work item directly from the
`in_progress` queue (there is no separate pending queue); between the pop
and the recording of the item's outcome the item is present in no queue at
all, so a crash in that window loses the item instead of leaving it
discoverable. -/
theorem C1_amended_pop_leaves_no_queue (qm : QueueManager) (st : Store)
    (entry : String) (rest : List String)
    (hip : st (qm.getQueueFile "in_progress") = some (queueContentOf (entry :: rest)))
    (hwf : WfQueue (entry :: rest))
    (hrest : entry ∉ rest)
    (hother : ∀ n ∈ (["skipped", "failed", "completed", "leftovers"] : List String),
      entry ∉ queueEntries qm st n) :
    (qm.queues).lookup "pending" = none ∧
    qm.pop_from_queue st "in_progress"
      = .ok (some entry,
          storeWrite st (qm.getQueueFile "in_progress") (queueContentOf rest)) ∧
    ∀ n ∈ (["skipped", "failed", "completed", "in_progress", "leftovers"] : List String),
      entry ∉ queueEntries qm
        (storeWrite st (qm.getQueueFile "in_progress") (queueContentOf rest)) n := by
  have hwfr : WfQueue rest := fun x hx => hwf x (List.mem_cons_of_mem entry hx)
  refine ⟨rfl,
    pop_from_queue_wf qm st "in_progress" _ (lookup_in_progress qm) entry rest hip hwf,
    ?_⟩
  intro n hn
  simp only [List.mem_cons, List.not_mem_nil, or_false] at hn
  rcases hn with rfl | rfl | rfl | rfl | rfl
  · rw [queueEntries_after_write_other qm st _ (by decide)]
    exact hother "skipped" (by simp)
  · rw [queueEntries_after_write_other qm st _ (by decide)]
    exact hother "failed" (by simp)
  · rw [queueEntries_after_write_other qm st _ (by decide)]
    exact hother "completed" (by simp)
  · rw [queueEntries_wf qm _ "in_progress" _ (lookup_in_progress qm) rest
      (storeWrite_self st _ _) hwfr]
    exact hrest
  · rw [queueEntries_after_write_other qm st _ (by decide)]
    exact hother "leftovers" (by simp)

/-- C1 amended witness: the fixture state with one pending work item. -/
theorem C1_amended_pop_leaves_no_queue_witness :
    (qmX.queues).lookup "pending" = none ∧
    qmX.pop_from_queue c1Store "in_progress"
      = .ok (some "a.mp4|||| True False False",
          storeWrite c1Store (qmX.getQueueFile "in_progress") (queueContentOf [])) ∧
    ∀ n ∈ (["skipped", "failed", "completed", "in_progress", "leftovers"] : List String),
      ("a.mp4|||| True False False") ∉ queueEntries qmX
        (storeWrite c1Store (qmX.getQueueFile "in_progress") (queueContentOf [])) n :=
  C1_amended_pop_leaves_no_queue qmX c1Store "a.mp4|||| True False False" []
    (by decide) (by decide) (by decide) (by decide)

/-- Store fixture: all five queues initialised empty, then one work entry
whose three flag tokens are all `False` in `in_progress`. -/
def c10Store : Store :=
  storeWrite (qmX.init_queues emptyStore) (qmX.getQueueFile "in_progress")
    (queueContentOf ["a.mp4|||| False False False"])

/-- C10: a popped work entry whose three flag tokens all parse to false is
popped but recorded in neither `completed` nor `failed`: the iteration
continues with the post-pop store, the outcome queues are unchanged, and
the entry is no longer present in any queue. -/
theorem C10_all_false_flags_vanish (ext : String) (oracle : String → ToolOracle)
    (qm : QueueManager) (st : Store) (entry fp : String) (rest : List String)
    (hip : st (qm.getQueueFile "in_progress") = some (queueContentOf (entry :: rest)))
    (hwf : WfQueue (entry :: rest))
    (hne : entry ≠ "")
    (hparse : parseEntry entry = .ok (fp, false, false, false))
    (hrest : entry ∉ rest)
    (hother : ∀ n ∈ (["skipped", "failed", "completed", "leftovers"] : List String),
      entry ∉ queueEntries qm st n) :
    workIteration ext oracle qm st
      = .next (storeWrite st (qm.getQueueFile "in_progress") (queueContentOf rest)) ∧
    queueEntries qm
        (storeWrite st (qm.getQueueFile "in_progress") (queueContentOf rest)) "completed"
      = queueEntries qm st "completed" ∧
    queueEntries qm
        (storeWrite st (qm.getQueueFile "in_progress") (queueContentOf rest)) "failed"
      = queueEntries qm st "failed" ∧
    ∀ n ∈ (["skipped", "failed", "completed", "in_progress", "leftovers"] : List String),
      entry ∉ queueEntries qm
        (storeWrite st (qm.getQueueFile "in_progress") (queueContentOf rest)) n := by
  have hwfr : WfQueue rest := fun x hx => hwf x (List.mem_cons_of_mem entry hx)
  have hpop := pop_from_queue_wf qm st "in_progress" _ (lookup_in_progress qm)
    entry rest hip hwf
  refine ⟨?_, ?_, ?_, ?_⟩
  · unfold workIteration
    rw [hpop]
    simp [hne, hparse]
  · exact queueEntries_after_write_other qm st _ (by decide)
  · exact queueEntries_after_write_other qm st _ (by decide)
  · intro n hn
    simp only [List.mem_cons, List.not_mem_nil, or_false] at hn
    rcases hn with rfl | rfl | rfl | rfl | rfl
    · rw [queueEntries_after_write_other qm st _ (by decide)]
      exact hother "skipped" (by simp)
    · rw [queueEntries_after_write_other qm st _ (by decide)]
      exact hother "failed" (by simp)
    · rw [queueEntries_after_write_other qm st _ (by decide)]
      exact hother "completed" (by simp)
    · rw [queueEntries_wf qm _ "in_progress" _ (lookup_in_progress qm) rest
        (storeWrite_self st _ _) hwfr]
      exact hrest
    · rw [queueEntries_after_write_other qm st _ (by decide)]
      exact hother "leftovers" (by simp)

/-- C10 witness: the fixture state with an all-false work item. -/
theorem C10_all_false_flags_vanish_witness :
    workIteration "mkv" (fun _ => ⟨none, none⟩) qmX c10Store
      = .next (storeWrite c10Store (qmX.getQueueFile "in_progress") (queueContentOf [])) ∧
    queueEntries qmX
        (storeWrite c10Store (qmX.getQueueFile "in_progress") (queueContentOf [])) "completed"
      = queueEntries qmX c10Store "completed" ∧
    queueEntries qmX
        (storeWrite c10Store (qmX.getQueueFile "in_progress") (queueContentOf [])) "failed"
      = queueEntries qmX c10Store "failed" ∧
    ∀ n ∈ (["skipped", "failed", "completed", "in_progress", "leftovers"] : List String),
      ("a.mp4|||| False False False") ∉ queueEntries qmX
        (storeWrite c10Store (qmX.getQueueFile "in_progress") (queueContentOf [])) n :=
  C10_all_false_flags_vanish "mkv" (fun _ => ⟨none, none⟩) qmX c10Store
    "a.mp4|||| False False False" "a.mp4" []
    (by decide) (by decide) (by decide) (by rfl) (by decide) (by decide)

/-! ## Claim C4 -/

/-- When a required external step fails (non-zero exit), `process_video`
returns `False`, and the only paths it may have written are the working
copy and the transmux output; every other path — in particular the
original file — holds exactly its previous content. -/
theorem process_video_fails (ext : String) (oracle : ToolOracle) (fs : Store)
    (filepath : String) (nc nEnc nRes : Bool)
    (hfail : (nc = true ∧ oracle.tmux = none) ∨
      ((nEnc || nRes) = true ∧ oracle.enc = none)) :
    (process_video ext oracle fs filepath nc nEnc nRes).1 = false ∧
    ∀ q, q ≠ working_file filepath →
      q ≠ tmuxedPath (working_file filepath) ext →
      (process_video ext oracle fs filepath nc nEnc nRes).2 q = fs q := by
  unfold process_video
  cases hsrc : fs filepath with
  | none => exact ⟨rfl, fun q _ _ => rfl⟩
  | some content =>
    dsimp only
    rcases hfail with ⟨hnc, htm⟩ | ⟨hor, hen⟩
    · subst hnc
      rw [htm]
      exact ⟨rfl, fun q h1 _ => storeWrite_ne fs _ _ h1⟩
    · cases nc with
      | false =>
        rw [hor, hen]
        exact ⟨rfl, fun q h1 _ => storeWrite_ne fs _ _ h1⟩
      | true =>
        cases htm : oracle.tmux with
        | none => exact ⟨rfl, fun q h1 _ => storeWrite_ne fs _ _ h1⟩
        | some c =>
          rw [hor, hen]
          refine ⟨rfl, fun q h1 h2 => ?_⟩
          have hself : (storeWrite (storeWrite fs (working_file filepath) content)
              (tmuxedPath (working_file filepath) ext) c)
              (tmuxedPath (working_file filepath) ext) = some c :=
            storeWrite_self _ _ _
          show (pyReplace (storeWrite (storeWrite fs (working_file filepath) content)
              (tmuxedPath (working_file filepath) ext) c)
              (tmuxedPath (working_file filepath) ext) (working_file filepath)) q = fs q
          rw [show pyReplace (storeWrite (storeWrite fs (working_file filepath) content)
                (tmuxedPath (working_file filepath) ext) c)
                (tmuxedPath (working_file filepath) ext) (working_file filepath)
              = storeErase
                  (storeWrite
                    (storeWrite (storeWrite fs (working_file filepath) content)
                      (tmuxedPath (working_file filepath) ext) c)
                    (working_file filepath) c)
                  (tmuxedPath (working_file filepath) ext) from by
            unfold pyReplace
            rw [hself]]
          rw [storeErase_ne _ _ h2, storeWrite_ne _ _ _ h1,
              storeWrite_ne _ _ _ h2, storeWrite_ne _ _ _ h1]

/-- C4: when a transformation step fails for a popped item, the original
file's content is unchanged, the original entry (with its original flags)
is appended to `failed`, `completed` is untouched, the rest of the work
queue is intact, and the loop simply continues with the next item — one
item's failure never aborts the batch. -/
theorem C4_failure_contained (ext : String) (oracle : String → ToolOracle)
    (qm : QueueManager) (st : Store) (entry fp : String)
    (nc nEnc nRes : Bool) (rest fq : List String)
    (hip : st (qm.getQueueFile "in_progress") = some (queueContentOf (entry :: rest)))
    (hfq : st (qm.getQueueFile "failed") = some (queueContentOf fq))
    (hwf : WfQueue (entry :: rest))
    (hwfq : WfQueue fq)
    (hne : entry ≠ "")
    (hparse : parseEntry entry = .ok (fp, nc, nEnc, nRes))
    (hflag : (nc || nEnc || nRes) = true)
    (hfail : (nc = true ∧ (oracle fp).tmux = none) ∨
      ((nEnc || nRes) = true ∧ (oracle fp).enc = none))
    (hmedia : ∀ p ∈ [working_file fp, tmuxedPath (working_file fp) ext,
        encodedPath (working_file fp) ext],
      ∀ f ∈ [qm.getQueueFile "skipped", qm.getQueueFile "failed",
        qm.getQueueFile "completed", qm.getQueueFile "in_progress",
        qm.getQueueFile "leftovers"], p ≠ f)
    (hfp1 : fp ≠ working_file fp)
    (hfp2 : fp ≠ tmuxedPath (working_file fp) ext)
    (hfpq : ∀ f ∈ [qm.getQueueFile "failed", qm.getQueueFile "in_progress"], fp ≠ f) :
    ∃ s3, workIteration ext oracle qm st = .next s3 ∧
      s3 fp = st fp ∧
      queueEntries qm st "failed" = fq ∧
      queueEntries qm s3 "failed" = fq ++ [entry] ∧
      queueEntries qm s3 "completed" = queueEntries qm st "completed" ∧
      queueEntries qm s3 "in_progress" = rest ∧
      ∀ n, workLoop ext oracle qm (n + 1) st = workLoop ext oracle qm n s3 := by
  have hwfr : WfQueue rest := fun x hx => hwf x (List.mem_cons_of_mem entry hx)
  have hpop := pop_from_queue_wf qm st "in_progress" _ (lookup_in_progress qm)
    entry rest hip hwf
  obtain ⟨hfalse, huntouched⟩ := process_video_fails ext (oracle fp)
    (storeWrite st (qm.getQueueFile "in_progress") (queueContentOf rest))
    fp nc nEnc nRes hfail
  have hff_ne_ip : qm.getQueueFile "failed" ≠ qm.getQueueFile "in_progress" :=
    getQueueFile_ne qm (by decide)
  have hs1ff : (storeWrite st (qm.getQueueFile "in_progress") (queueContentOf rest))
      (qm.getQueueFile "failed") = some (queueContentOf fq) := by
    rw [storeWrite_ne st _ _ hff_ne_ip]; exact hfq
  have hr2ff : (process_video ext (oracle fp)
        (storeWrite st (qm.getQueueFile "in_progress") (queueContentOf rest))
        fp nc nEnc nRes).2 (qm.getQueueFile "failed")
      = some (queueContentOf fq) := by
    rw [huntouched _
      (Ne.symm (hmedia _ (by simp) _ (by simp)))
      (Ne.symm (hmedia _ (by simp) _ (by simp)))]
    exact hs1ff
  have hadd := add_to_queue_wf qm
    (process_video ext (oracle fp)
      (storeWrite st (qm.getQueueFile "in_progress") (queueContentOf rest))
      fp nc nEnc nRes).2
    "failed" _ (lookup_failed qm) fq hr2ff entry
  have hiter : workIteration ext oracle qm st
      = .next (storeWrite
          (process_video ext (oracle fp)
            (storeWrite st (qm.getQueueFile "in_progress") (queueContentOf rest))
            fp nc nEnc nRes).2
          (qm.getQueueFile "failed") (queueContentOf (fq ++ [entry]))) := by
    unfold workIteration
    rw [hpop]
    simp only [if_neg hne, hparse, hflag, if_pos, hfalse, Bool.false_eq_true,
      if_false, hadd]
  refine ⟨_, hiter, ?_, ?_, ?_, ?_, ?_, ?_⟩
  · rw [storeWrite_ne _ _ _ (hfpq _ (by simp)),
        huntouched _ hfp1 hfp2,
        storeWrite_ne _ _ _ (hfpq _ (by simp))]
  · exact queueEntries_wf qm st "failed" _ (lookup_failed qm) fq hfq hwfq
  · refine queueEntries_wf qm _ "failed" _ (lookup_failed qm) (fq ++ [entry])
      (storeWrite_self _ _ _) ?_
    intro x hx
    rcases List.mem_append.mp hx with hx | hx
    · exact hwfq x hx
    · rw [List.mem_singleton.mp hx]
      exact hwf entry (List.mem_cons_self entry rest)
  · apply queueEntries_congr
    intro f hf
    have hfe := lookup_eq_getQueueFile qm hf
    subst hfe
    rw [storeWrite_ne _ _ _ (getQueueFile_ne qm (by decide)),
        huntouched _
          (Ne.symm (hmedia _ (by simp) _ (by simp)))
          (Ne.symm (hmedia _ (by simp) _ (by simp))),
        storeWrite_ne _ _ _ (getQueueFile_ne qm (by decide))]
  · refine queueEntries_wf qm _ "in_progress" _ (lookup_in_progress qm) rest ?_ hwfr
    rw [storeWrite_ne _ _ _ (Ne.symm hff_ne_ip),
        huntouched _
          (Ne.symm (hmedia _ (by simp) _ (by simp)))
          (Ne.symm (hmedia _ (by simp) _ (by simp)))]
    exact storeWrite_self _ _ _
  · intro n
    rw [show workLoop ext oracle qm (n + 1) st
        = (match workIteration ext oracle qm st with
           | .done s2 => .ok s2
           | .err e => .error e
           | .next s2 => workLoop ext oracle qm n s2) from rfl, hiter]

/-- Store fixture for C4: queues initialised, one work item needing a
container change in `in_progress`, and the media file present on disk. -/
def c4Store : Store :=
  storeWrite
    (storeWrite (qmX.init_queues emptyStore) (qmX.getQueueFile "in_progress")
      (queueContentOf ["/m/v.mp4|||| True False False"]))
    "/m/v.mp4" ("videodata".data)

/-- C4 witness: a transmux failure on the fixture item. -/
theorem C4_failure_contained_witness :
    ∃ s3, workIteration "mkv" (fun _ => ⟨none, none⟩) qmX c4Store = .next s3 ∧
      s3 "/m/v.mp4" = c4Store "/m/v.mp4" ∧
      queueEntries qmX c4Store "failed" = [] ∧
      queueEntries qmX s3 "failed" = [] ++ ["/m/v.mp4|||| True False False"] ∧
      queueEntries qmX s3 "completed" = queueEntries qmX c4Store "completed" ∧
      queueEntries qmX s3 "in_progress" = [] ∧
      ∀ n, workLoop "mkv" (fun _ => ⟨none, none⟩) qmX (n + 1) c4Store
        = workLoop "mkv" (fun _ => ⟨none, none⟩) qmX n s3 :=
  C4_failure_contained "mkv" (fun _ => ⟨none, none⟩) qmX c4Store
    "/m/v.mp4|||| True False False" "/m/v.mp4" true false false [] []
    (by decide) (by decide) (by decide) (by decide) (by decide) (by rfl)
    (by decide) (Or.inl ⟨rfl, rfl⟩) (by decide) (by decide) (by decide) (by decide)

/-! ## Claim C2 -/

/-- Observation: the entries of one queue after the startup phase
(`none` when the phase raised). -/
def initPhaseEntries (qm : QueueManager) (st : Store) (force retry_failed : Bool)
    (fuel : Nat) (name : String) : Option (List String) :=
  match initPhase qm st force retry_failed fuel with
  | .error _ => none
  | .ok s => some (queueEntries qm s name)

/-- Store fixture for C2: one prior failure recorded in the `failed`
queue, no other queue files on disk. -/
def c2Store : Store :=
  storeWrite emptyStore (qmX.getQueueFile "failed") (queueContentOf ["bad.mp4"])

/-- C2: with `--retry-failed` requested, the startup phase calls
`initialize_queues` — which truncates every queue file, including
`failed` — before the retry loop reads `failed`; so at a state with one
prior failed entry, the retry drains nothing, `in_progress` stays empty
and the failed entry is destroyed rather than re-queued.  The result is
identical to not passing the flag at all. -/
theorem C2_retry_failed_is_noop :
    queueEntries qmX c2Store "failed" = ["bad.mp4"] ∧
    initPhaseEntries qmX c2Store true true 10 "in_progress" = some [] ∧
    initPhaseEntries qmX c2Store true true 10 "failed" = some [] ∧
    initPhaseEntries qmX c2Store true false 10 "in_progress" = some [] ∧
    initPhaseEntries qmX c2Store false true 10 "in_progress" = some [] := by
  refine ⟨by decide, by decide, by decide, by decide, by decide⟩

end MediaFixer
